import Mathlib

/-!
Shallow embedding of the ChessConnect game-session orchestration core:
the bot search (server/bot.ts), the move / resign / draw / matchmaking
route transitions (server/routes.ts), and the storage-layer state
operations (server/storage.ts).  The chess rules library (chess.js) is an
external collaborator per the design (§1/§6), so all transitions are
parameterised over an abstract rules-engine interface whose operations
mirror exactly the calls the source makes.
-/

set_option autoImplicit false

namespace ChessConnect

/-- A piece of `chess.board()`: its type character (`'p'`, `'n'`, `'b'`,
`'r'`, `'q'`, `'k'`) and its colour (`piece.color === 'w'`). -/
structure Piece where
  ptype : Char
  isWhitePiece : Bool
deriving DecidableEq

/-- The external rules-engine interface (chess.js as consumed by the source):
`moves` enumerates legal moves (`chess.moves()`), `play` applies a move taken
from that enumeration (`chess.move(m)` on an enumerated move), `tryMove`
applies a client-supplied move and is `none` when the library rejects it
(`chess.move(san)` returning a falsy value or throwing), and the flag queries
mirror `isGameOver`/`isCheckmate`/`isStalemate`/`isDraw`; `board` is
`chess.board()` (an 8x8 grid of optional pieces) and `turnWhite` is
`chess.turn() === 'w'`. -/
structure Engine (Pos M : Type) where
  moves : Pos → List M
  play : Pos → M → Pos
  tryMove : Pos → M → Option Pos
  gameOver : Pos → Bool
  checkmate : Pos → Bool
  stalemate : Pos → Bool
  drawn : Pos → Bool
  board : Pos → List (List (Option Piece))
  turnWhite : Pos → Bool

/-- `ChessBot.getPieceValue` (bot.ts): pawn 1, knight 3, bishop 3, rook 5,
queen 9, king 0, anything else 0 (both cases map to the same value, and
`chess.board()` supplies lower-case type characters). -/
def getPieceValue (piece : Char) : Int :=
  if piece = 'p' ∨ piece = 'P' then 1
  else if piece = 'n' ∨ piece = 'N' then 3
  else if piece = 'b' ∨ piece = 'B' then 3
  else if piece = 'r' ∨ piece = 'R' then 5
  else if piece = 'q' ∨ piece = 'Q' then 9
  else 0

/-- Contribution of one board cell to `ChessBot.evaluatePosition`:
`+value` for a white piece, `-value` for a black piece, 0 for an empty cell. -/
def cellValue (c : Option Piece) : Int :=
  match c with
  | none => 0
  | some pc => if pc.isWhitePiece then getPieceValue pc.ptype else - getPieceValue pc.ptype

/-- `ChessBot.evaluatePosition` (bot.ts): signed material balance summed over
the 8x8 board returned by `chess.board()` (the loops run `i, j` from 0 to 7). -/
def evaluatePosition (b : List (List (Option Piece))) : Int :=
  ((List.range 8).map (fun i =>
    ((List.range 8).map (fun j => cellValue ((b.getD i []).getD j none))).sum)).sum

/-- JavaScript numbers as used by the bot search: `-Infinity`, finite values,
`Infinity`.  Hard-difficulty evaluations are integer material balances. -/
inductive Ext where
  | negInf
  | fin (v : Int)
  | posInf
deriving DecidableEq

/-- The `<=` order on `Ext` (JavaScript `<=` on numbers incl. infinities). -/
def Ext.le : Ext → Ext → Bool
  | .negInf, _ => true
  | .fin _, .posInf => true
  | .fin a, .fin b => decide (a ≤ b)
  | .fin _, .negInf => false
  | .posInf, .posInf => true
  | .posInf, _ => false

/-- JavaScript strict `<` on numbers incl. infinities (no NaN arises here). -/
def Ext.lt (a b : Ext) : Bool := ! Ext.le b a

/-- `Math.max` on two values. -/
def Ext.maxE (a b : Ext) : Ext := if Ext.le a b then b else a

/-- `Math.min` on two values. -/
def Ext.minE (a b : Ext) : Ext := if Ext.le a b then a else b

variable {Pos M : Type}

/-- The maximizing loop of `ChessBot.minimax` (bot.ts): fold over the move
list carrying `maxEval` and `alpha`; each child is evaluated by `f` (the
depth-decremented recursive call) at the current `alpha`/`beta`; `maxEval`
and `alpha` are updated and the loop breaks when `beta <= alpha`. -/
def abMax (f : Pos → Ext → Ext → Ext) (play : Pos → M → Pos) (p : Pos) (beta : Ext) :
    List M → Ext → Ext → Ext
  | [], maxEval, _alpha => maxEval
  | m :: ms, maxEval, alpha =>
    let ev := f (play p m) alpha beta
    let maxEval2 := Ext.maxE maxEval ev
    let alpha2 := Ext.maxE alpha ev
    if Ext.le beta alpha2 then maxEval2 else abMax f play p beta ms maxEval2 alpha2

/-- The minimizing loop of `ChessBot.minimax` (bot.ts), symmetric to `abMax`:
carries `minEval` and `beta`, breaks when `beta <= alpha`. -/
def abMin (f : Pos → Ext → Ext → Ext) (play : Pos → M → Pos) (p : Pos) (alpha : Ext) :
    List M → Ext → Ext → Ext
  | [], minEval, _beta => minEval
  | m :: ms, minEval, beta =>
    let ev := f (play p m) alpha beta
    let minEval2 := Ext.minE minEval ev
    let beta2 := Ext.minE beta ev
    if Ext.le beta2 alpha then minEval2 else abMin f play p alpha ms minEval2 beta2

/-- `ChessBot.minimax` (bot.ts): at depth 0 or on a finished position return
the material evaluation; otherwise run the alpha-beta max or min loop over
the legal moves, recursing with depth - 1 and the flipped maximizing flag. -/
def minimax (E : Engine Pos M) : Nat → Pos → Ext → Ext → Bool → Ext
  | 0, p, _alpha, _beta, _isMax => .fin (evaluatePosition (E.board p))
  | Nat.succ d, p, alpha, beta, isMax =>
    if E.gameOver p then .fin (evaluatePosition (E.board p))
    else if isMax then
      abMax (fun q a b => minimax E d q a b false) E.play p beta (E.moves p) Ext.negInf alpha
    else
      abMin (fun q a b => minimax E d q a b true) E.play p alpha (E.moves p) Ext.posInf beta

/-- The root evaluation of one candidate move in `ChessBot.getHardMove`:
`this.minimax(3, -Infinity, Infinity, !isWhite)` after playing the move. -/
def rootEval (E : Engine Pos M) (p : Pos) (isWhite : Bool) (m : M) : Ext :=
  minimax E 3 (E.play p m) Ext.negInf Ext.posInf (! isWhite)

/-- The selection loop of `ChessBot.getHardMove` (bot.ts): starting from
`bestMove = moves[0]` and `bestEvaluation = -Infinity`, scan all moves and
replace the best on a strictly greater root evaluation. -/
def hardLoop (E : Engine Pos M) (p : Pos) (isWhite : Bool) :
    List M → M → Ext → M × Ext
  | [], best, bestEval => (best, bestEval)
  | m :: ms, best, bestEval =>
    let ev := rootEval E p isWhite m
    if Ext.lt bestEval ev then hardLoop E p isWhite ms m ev
    else hardLoop E p isWhite ms best bestEval

/-- `ChessBot.getBestMove` at Hard difficulty (bot.ts): throws (`none`) when
the position has no legal moves, otherwise runs `getHardMove`, which
maximizes the root evaluation with `isWhite = (chess.turn() === 'w')`. -/
def getBestMoveHard (E : Engine Pos M) (p : Pos) : Option (M × Ext) :=
  match E.moves p with
  | [] => none
  | m :: ms => some (hardLoop E p (E.turnWhite p) (m :: ms) m Ext.negInf)

/-- Plain (unpruned) fixed-depth minimax value of a position, stated from the
spec's words (§4.4): leaves are the material balance; at an inner node the
side to move maximizes (White) or minimizes (Black) over the children. -/
def specMinimaxValue (E : Engine Pos M) : Nat → Pos → Ext
  | 0, p => .fin (evaluatePosition (E.board p))
  | Nat.succ d, p =>
    if E.gameOver p then .fin (evaluatePosition (E.board p))
    else if E.turnWhite p then
      ((E.moves p).map (fun m => specMinimaxValue E d (E.play p m))).foldl Ext.maxE Ext.negInf
    else
      ((E.moves p).map (fun m => specMinimaxValue E d (E.play p m))).foldl Ext.minE Ext.posInf

/-- First-encounter selection of the best element: replace the current best
only on a strict improvement (`better current candidate = true`). -/
def bestByFirst (better : Ext → Ext → Bool) (f : M → Ext) : M → List M → M
  | best, [] => best
  | best, m :: ms =>
    if better (f best) (f m) then bestByFirst better f m ms else bestByFirst better f best ms

/-- Stated from the spec's words (§4.4, Hard): the root move that is optimal
for the side to move — the maximizing side at the root is the side to move —
with ties broken by encounter order; children are scored by the fixed-depth
minimax value.  This is the specification-side definition used to compare
against the source's `getBestMoveHard`. -/
def specSideToMoveOptimal (E : Engine Pos M) (d : Nat) (p : Pos) : Option M :=
  match E.moves p with
  | [] => none
  | m :: ms =>
    if E.turnWhite p then
      some (bestByFirst (fun a b => Ext.lt a b) (fun mv => specMinimaxValue E d (E.play p mv)) m ms)
    else
      some (bestByFirst (fun a b => Ext.lt b a) (fun mv => specMinimaxValue E d (E.play p mv)) m ms)

/-! ## Data model: game documents, move records, users, matchmaking tickets
(shared/schema.ts and server/storage.ts) -/

/-- The `Game` document (shared/schema.ts): player slots are optional id
strings, `status` is `"active"` or `"completed"`, `result` is
`"white_wins"`, `"black_wins"` or `"draw"` when set, `currentTurn` is
`"white"` or `"black"`, and the position is the stored FEN (abstracted to
the rules-engine position type `Pos`). -/
structure GameState (Pos : Type) where
  whitePlayerId : Option String
  blackPlayerId : Option String
  status : String
  result : Option String
  timeControl : Int
  whiteTimeRemaining : Option Int
  blackTimeRemaining : Option Int
  currentTurn : String
  moveCount : Int
  fen : Pos
deriving DecidableEq

/-- A `GameMove` document (shared/schema.ts): sequence number, the move, the
resulting position snapshot, and the declared time remaining. -/
structure MoveRecord (Pos M : Type) where
  moveNumber : Int
  move : M
  fen : Pos
  timeRemaining : Option Int
deriving DecidableEq

/-- A `User` document's rating-relevant fields (shared/schema.ts). -/
structure UserRec where
  uid : String
  rating : Int
  gamesPlayed : Int
  wins : Int
  losses : Int
  draws : Int
deriving DecidableEq

/-- A `MatchmakingQueue` document (shared/schema.ts): ticket holder, time
control, rating band (accepted but unused by the matching query), creation
timestamp. -/
structure MMEntry where
  playerId : String
  timeControl : Int
  ratingRange : Int
  createdAt : Nat
deriving DecidableEq

/-- The persistent state the routes operate on: one game document, its
append-only move log, the user documents, and the matchmaking queue. -/
structure Db (Pos M : Type) where
  game : GameState Pos
  moves : List (MoveRecord Pos M)
  users : List UserRec
  queue : List MMEntry
deriving DecidableEq

/-- Outcome argument of `DatabaseStorage.updateUserStats` (storage.ts):
the TypeScript union `'win' | 'loss' | 'draw'`. -/
inductive Outcome where
  | win
  | loss
  | draw
deriving DecidableEq

/-- The rating computation inside `DatabaseStorage.updateUserStats`
(storage.ts): win → `rating + 25`, loss → `Math.max(800, rating - 25)`,
draw → `rating + 5`. -/
def newRating (rating : Int) : Outcome → Int
  | .win => rating + 25
  | .loss => max 800 (rating - 25)
  | .draw => rating + 5

/-- The per-user update object built by `DatabaseStorage.updateUserStats`:
`gamesPlayed + 1`, the matching win/loss/draw counter incremented, and the
rating replaced by its updated value. -/
def applyStats (u : UserRec) (o : Outcome) : UserRec :=
  { u with
    gamesPlayed := u.gamesPlayed + 1
    wins := if o = Outcome.win then u.wins + 1 else u.wins
    losses := if o = Outcome.loss then u.losses + 1 else u.losses
    draws := if o = Outcome.draw then u.draws + 1 else u.draws
    rating := newRating u.rating o }

/-- `DatabaseStorage.getUser` (storage.ts): `UserModel.findOne({ id })`. -/
def getUser (users : List UserRec) (uid : String) : Option UserRec :=
  users.find? (fun u => u.uid == uid)

/-- `DatabaseStorage.updateUserStats` (storage.ts): fetch the user (silently
returning when absent), then write the updated counters and rating back to
the document with that id (ids are unique in the user collection). -/
def updateUserStats (users : List UserRec) (userId : String) (o : Outcome) : List UserRec :=
  match getUser users userId with
  | none => users
  | some _ => users.map (fun u => if u.uid == userId then applyStats u o else u)

/-- The player-kind convention of the routes (routes.ts): bot identities are
strings starting with `"bot_"`. -/
def isBotId (s : String) : Bool := "bot_".data.isPrefixOf s.data

/-- The guard pattern `if (playerId && !playerId.startsWith('bot_'))
updateUserStats(playerId, outcome)` used by every stats block in routes.ts. -/
def statFor (users : List UserRec) (pid : Option String) (o : Outcome) : List UserRec :=
  match pid with
  | none => users
  | some p => if isBotId p then users else updateUserStats users p o

/-- The stats block of the move route (routes.ts, `if (result) { ... }`):
`white_wins` → white win and black loss, `black_wins` → black win and white
loss, anything else (`draw`) → both draw; bots and empty slots skipped. -/
def applyResultStats (users : List UserRec) (w b : Option String) (result : String) :
    List UserRec :=
  if result == "white_wins" then statFor (statFor users w Outcome.win) b Outcome.loss
  else if result == "black_wins" then statFor (statFor users b Outcome.win) w Outcome.loss
  else statFor (statFor users w Outcome.draw) b Outcome.draw

/-! ## The move route: POST /api/games/:id/moves (routes.ts) -/

/-- Responses of the move route relevant to the session transition:
403 "Not a player in this game", 400 "Not your turn", 400 "Invalid move",
and the success response.  (Request-shape 400s and the 404 for a missing
game happen before the session is read and are elided.) -/
inductive MoveResp where
  | notAPlayer
  | notYourTurn
  | invalidMove
  | ok
deriving DecidableEq

/-- The human-move transition of POST /api/games/:id/moves (routes.ts,
through the stats block): participant and turn validation, move validation
against the rules engine, append of the move record, and the game update
with flipped turn, incremented `moveCount`, terminal status/result (the
checkmate branch awards `black_wins` when the pre-move turn was white), and
the mover's clock replaced by the declared time (an absent declared value is
an `undefined` update path, which the storage layer drops, leaving the old
clock).  A `null` result is likewise not written, keeping the old value. -/
def applyMoveCore (E : Engine Pos M) (db : Db Pos M) (userId : String) (mv : M)
    (declaredTime : Option Int) : MoveResp × Db Pos M :=
  let game := db.game
  let isWhitePlayer := game.whitePlayerId == some userId
  let isBlackPlayer := game.blackPlayerId == some userId
  if !isWhitePlayer && !isBlackPlayer then (MoveResp.notAPlayer, db)
  else
    let isPlayerTurn := (game.currentTurn == "white" && isWhitePlayer) ||
                        (game.currentTurn == "black" && isBlackPlayer)
    if !isPlayerTurn then (MoveResp.notYourTurn, db)
    else
      match E.tryMove game.fen mv with
      | none => (MoveResp.invalidMove, db)
      | some newPos =>
        let moveRec : MoveRecord Pos M := ⟨game.moveCount + 1, mv, newPos, declaredTime⟩
        let gameStatus := if E.gameOver newPos then "completed" else "active"
        let result : Option String :=
          if E.checkmate newPos then
            some (if game.currentTurn == "white" then "black_wins" else "white_wins")
          else if E.drawn newPos || E.stalemate newPos then some "draw"
          else none
        let newGame : GameState Pos :=
          { game with
            fen := newPos
            currentTurn := if game.currentTurn == "white" then "black" else "white"
            moveCount := game.moveCount + 1
            status := gameStatus
            result := match result with
              | some r => some r
              | none => game.result
            whiteTimeRemaining := if isWhitePlayer then
                match declaredTime with
                | some t => some t
                | none => game.whiteTimeRemaining
              else game.whiteTimeRemaining
            blackTimeRemaining := if isBlackPlayer then
                match declaredTime with
                | some t => some t
                | none => game.blackTimeRemaining
              else game.blackTimeRemaining }
        let newUsers :=
          match result with
          | some r => applyResultStats db.users game.whitePlayerId game.blackPlayerId r
          | none => db.users
        (MoveResp.ok, { db with game := newGame, moves := db.moves ++ [moveRec], users := newUsers })

/-- The inline bot-reply step of the move route (routes.ts): when the updated
game is still active and the side now to move is a bot id, ask the bot for a
move (`botPick` abstracts `ChessBot.getBestMove`, which throws — `none` —
on a terminal position; the route catches that and replies without a bot
move), apply it, append the bot's move record, and update the game again;
this second update's checkmate branch awards the win to the side that just
moved (the bot), and it does not touch the clocks. -/
def botReply (E : Engine Pos M) (botPick : Pos → Option M) (db : Db Pos M) : Db Pos M :=
  let updatedGame := db.game
  if updatedGame.status == "active" then
    let opponentId := if updatedGame.currentTurn == "white" then updatedGame.whitePlayerId
                      else updatedGame.blackPlayerId
    match opponentId with
    | none => db
    | some oid =>
      if isBotId oid then
        match botPick updatedGame.fen with
        | none => db
        | some bm =>
          match E.tryMove updatedGame.fen bm with
          | none => db
          | some newPos =>
            let botRec : MoveRecord Pos M :=
              ⟨updatedGame.moveCount + 1, bm, newPos,
               if updatedGame.currentTurn == "white" then updatedGame.whiteTimeRemaining
               else updatedGame.blackTimeRemaining⟩
            let botStatus := if E.gameOver newPos then "completed" else "active"
            let botResult : Option String :=
              if E.checkmate newPos then
                some (if updatedGame.currentTurn == "white" then "white_wins" else "black_wins")
              else if E.drawn newPos || E.stalemate newPos then some "draw"
              else none
            let finalGame : GameState Pos :=
              { updatedGame with
                fen := newPos
                currentTurn := if updatedGame.currentTurn == "white" then "black" else "white"
                moveCount := updatedGame.moveCount + 1
                status := botStatus
                result := match botResult with
                  | some r => some r
                  | none => updatedGame.result }
            { db with game := finalGame, moves := db.moves ++ [botRec] }
      else db
  else db

/-- The full move route: the human transition followed, on success, by the
chained bot reply. -/
def applyMoveRoute (E : Engine Pos M) (botPick : Pos → Option M) (db : Db Pos M)
    (userId : String) (mv : M) (declaredTime : Option Int) : MoveResp × Db Pos M :=
  match applyMoveCore E db userId mv declaredTime with
  | (MoveResp.ok, db1) => (MoveResp.ok, botReply E botPick db1)
  | r => r

/-! ## Resign and draw routes (routes.ts) -/

/-- Responses of POST /api/games/:id/resign: 403 "Not a player in this game"
or success.  The handler performs no status check. -/
inductive ResignResp where
  | notAPlayer
  | ok
deriving DecidableEq

/-- POST /api/games/:id/resign (routes.ts): after the participant check the
game is set to completed with a win for the resigner's opponent, and the
stats blocks run for both non-bot players.  There is no check that the game
is still active. -/
def resignRoute (db : Db Pos M) (userId : String) : ResignResp × Db Pos M :=
  let game := db.game
  let isPlayer := game.whitePlayerId == some userId || game.blackPlayerId == some userId
  if !isPlayer then (ResignResp.notAPlayer, db)
  else
    let result := if game.whitePlayerId == some userId then "black_wins" else "white_wins"
    let newGame := { game with status := "completed", result := some result }
    let newUsers :=
      if result == "white_wins" then
        statFor (statFor db.users game.whitePlayerId Outcome.win) game.blackPlayerId Outcome.loss
      else
        statFor (statFor db.users game.blackPlayerId Outcome.win) game.whitePlayerId Outcome.loss
    (ResignResp.ok, { db with game := newGame, users := newUsers })

/-- Responses of the draw routes: 400 "Game is not active", 403 "Not a player
in this game", and the generic 500 failure produced by the catch block. -/
inductive DrawResp where
  | gameNotActive
  | notAPlayer
  | storageFailure
deriving DecidableEq

/-- POST /api/games/:id/draw-offer (routes.ts): status check, participant
check, then `storage.addDrawOffer(gameId, userId)`.  `IStorage` declares no
draw-offer operations and `DatabaseStorage` (storage.ts) implements none, so
this call throws a TypeError at runtime; the handler's catch turns it into
the generic 500 "Failed to offer draw" and nothing is written. -/
def drawOfferRoute (db : Db Pos M) (userId : String) : DrawResp × Db Pos M :=
  let game := db.game
  if !(game.status == "active") then (DrawResp.gameNotActive, db)
  else
    let isPlayer := game.whitePlayerId == some userId || game.blackPlayerId == some userId
    if !isPlayer then (DrawResp.notAPlayer, db)
    else (DrawResp.storageFailure, db)

/-- POST /api/games/:id/draw-response (routes.ts): status check, participant
check, then `storage.removeDrawOffers(gameId)` — also absent from
`DatabaseStorage` — so every request that passes validation dies in the
catch block with the generic 500 "Failed to respond to draw" before the
accept/decline branch is reached; the game is never updated.  The handler
contains no check that a draw offer is actually pending. -/
def drawResponseRoute (db : Db Pos M) (userId : String) (_accept : Bool) : DrawResp × Db Pos M :=
  let game := db.game
  if !(game.status == "active") then (DrawResp.gameNotActive, db)
  else
    let isPlayer := game.whitePlayerId == some userId || game.blackPlayerId == some userId
    if !isPlayer then (DrawResp.notAPlayer, db)
    else (DrawResp.storageFailure, db)

/-! ## Matchmaking (routes.ts POST /api/matchmaking and storage.ts) -/

/-- First entry of the queue under ascending `createdAt` (the
`findOne().sort({ createdAt: 1 })` of `findMatchmakingOpponent`); earlier
list position wins ties. -/
def minByCreated : List MMEntry → Option MMEntry
  | [] => none
  | e :: es =>
    match minByCreated es with
    | none => some e
    | some b => if e.createdAt ≤ b.createdAt then some e else some b

/-- `DatabaseStorage.findMatchmakingOpponent` (storage.ts): `undefined` when
the requesting user does not exist; otherwise the earliest-created ticket of
a different player with the same time control.  The `ratingRange` parameter
is accepted but not used by the query. -/
def findMatchmakingOpponent (users : List UserRec) (queue : List MMEntry)
    (playerId : String) (timeControl : Int) : Option MMEntry :=
  match getUser users playerId with
  | none => none
  | some _ =>
    minByCreated (queue.filter (fun e => e.playerId != playerId && e.timeControl == timeControl))

/-- `DatabaseStorage.addToMatchmaking` (storage.ts): unconditionally insert a
new queue document.  Nothing is removed or replaced. -/
def addToMatchmaking (entry : MMEntry) (queue : List MMEntry) : List MMEntry :=
  queue ++ [entry]

/-- `DatabaseStorage.removeFromMatchmaking` (storage.ts):
`deleteMany({ playerId })` — every ticket of the player is removed. -/
def removeFromMatchmaking (playerId : String) (queue : List MMEntry) : List MMEntry :=
  queue.filter (fun e => e.playerId != playerId)

/-- Result of POST /api/matchmaking: a created game's colour assignment, or
the enqueued ticket. -/
inductive RMResult where
  | matched (whiteId blackId : String)
  | enqueued (entry : MMEntry)
deriving DecidableEq

/-- POST /api/matchmaking (routes.ts): look for an opponent; on a hit create
the game with colours decided by the coin flip (`Math.random() > 0.5`) and
remove both players' tickets; otherwise insert a ticket for the requester.
`now` stands for the insertion timestamp and `coinWhite` for the coin. -/
def requestMatch (users : List UserRec) (queue : List MMEntry) (playerId : String)
    (timeControl ratingRange : Int) (now : Nat) (coinWhite : Bool) :
    RMResult × List MMEntry :=
  match findMatchmakingOpponent users queue playerId timeControl with
  | some opp =>
    let w := if coinWhite then playerId else opp.playerId
    let b := if coinWhite then opp.playerId else playerId
    let q1 := removeFromMatchmaking playerId queue
    let q2 := removeFromMatchmaking opp.playerId q1
    (RMResult.matched w b, q2)
  | none =>
    let entry : MMEntry := ⟨playerId, timeControl, ratingRange, now⟩
    (RMResult.enqueued entry, addToMatchmaking entry queue)

/-- Number of outstanding tickets a player holds. -/
def ticketCount (playerId : String) (queue : List MMEntry) : Nat :=
  (queue.filter (fun e => e.playerId == playerId)).length

/-- A concrete rules-engine instance exercising the Hard bot with Black to
move: from position 0 (Black to move) move 1 reaches a finished position
where White is up a queen (evaluation +9) and move 2 reaches a finished
position where Black is up a queen (evaluation -9). -/
def blackRootEngine : Engine Nat Nat where
  moves := fun p => if p = 0 then [1, 2] else []
  play := fun _ m => m
  tryMove := fun _ _ => none
  gameOver := fun p => decide (p ≠ 0)
  checkmate := fun _ => false
  stalemate := fun _ => false
  drawn := fun _ => false
  board := fun p =>
    if p = 1 then [[some ⟨'q', true⟩]]
    else if p = 2 then [[some ⟨'q', false⟩]]
    else []
  turnWhite := fun _ => false

/-- A concrete rules-engine instance in which the client move "Qh7" from the
starting position 0 is legal and produces position 1, which is checkmate
(and hence game over). -/
def mateEngine : Engine Nat String where
  moves := fun _ => []
  play := fun p _ => p
  tryMove := fun p m => if p == 0 && m == "Qh7" then some 1 else none
  gameOver := fun p => p == 1
  checkmate := fun p => p == 1
  stalemate := fun _ => false
  drawn := fun _ => false
  board := fun _ => []
  turnWhite := fun _ => true

/-- A concrete rules-engine instance with a short non-terminal line of play:
"e4" from position 0, "e5" from position 1, "Nf3" from position 2; no
position is game over. -/
def chainEngine : Engine Nat String where
  moves := fun _ => []
  play := fun p _ => p
  tryMove := fun p m =>
    if p == 0 && m == "e4" then some 1
    else if p == 1 && m == "e5" then some 2
    else if p == 2 && m == "Nf3" then some 3
    else none
  gameOver := fun _ => false
  checkmate := fun _ => false
  stalemate := fun _ => false
  drawn := fun _ => false
  board := fun _ => []
  turnWhite := fun p => p % 2 == 0

/-- A fresh two-human game: "alice" (white, rating 1200) versus "bob"
(black, rating 1200), active, White to move, 600 second clocks both sides,
no moves played, empty matchmaking queue. -/
def startDb : Db Nat String where
  game :=
    { whitePlayerId := some "alice"
      blackPlayerId := some "bob"
      status := "active"
      result := none
      timeControl := 600
      whiteTimeRemaining := some 600
      blackTimeRemaining := some 600
      currentTurn := "white"
      moveCount := 0
      fen := 0 }
  moves := []
  users := [⟨"alice", 1200, 0, 0, 0, 0⟩, ⟨"bob", 1200, 0, 0, 0, 0⟩]
  queue := []

/-- The game state after "bob" resigns the fresh game: completed,
`white_wins`, stats applied once to each player. -/
def resignedDb : Db Nat String := (resignRoute startDb "bob").2

/-- The queue after "A" requests a match on the empty queue (no opponent
exists, so a ticket is inserted). -/
def queueOnceA : List MMEntry := (requestMatch [⟨"A", 1200, 0, 0, 0, 0⟩] [] "A" 600 200 0 true).2

/-- The queue after "A" requests a match a second time: the only waiting
ticket belongs to "A" itself, which the opponent query excludes, so a second
ticket for "A" is inserted. -/
def queueTwiceA : List MMEntry :=
  (requestMatch [⟨"A", 1200, 0, 0, 0, 0⟩] queueOnceA "A" 600 200 1 true).2

/-! ## Theorems for the claims -/

/-- C1: the code is wrong on the human-move path.  In the concrete game
"alice" (White) versus "bob", with White to move, alice plays the
checkmating move "Qh7"; the move is accepted and the game completes, but the
route's terminal check awards `black_wins` — a win for the opponent of the
side that just moved — and the stats block rates alice as the loser (1175)
and bob as the winner (1225).  The bot-reply path of the same route awards
the win to the mover, so the two terminal checks are mutually inconsistent
and the human-path one contradicts the rules of chess. -/
theorem checkmate_credits_opponent_on_human_path :
    (applyMoveRoute mateEngine (fun _ => none) startDb "alice" "Qh7" (some 590)).1 =
      MoveResp.ok ∧
    (applyMoveRoute mateEngine (fun _ => none) startDb "alice" "Qh7" (some 590)).2.game.status =
      "completed" ∧
    (applyMoveRoute mateEngine (fun _ => none) startDb "alice" "Qh7" (some 590)).2.game.result =
      some "black_wins" ∧
    startDb.game.currentTurn = "white" ∧
    startDb.game.whitePlayerId = some "alice" ∧
    (applyMoveRoute mateEngine (fun _ => none) startDb "alice" "Qh7" (some 590)).2.users =
      [⟨"alice", 1175, 1, 0, 1, 0⟩, ⟨"bob", 1225, 1, 1, 0, 0⟩] := by
  decide

/-- C2: the code is wrong when Black is to move.  In `blackRootEngine`,
position 0 has Black to move and two legal moves: move 1 reaches a finished
position with evaluation +9 (White up a queen) and move 2 one with -9 (Black
up a queen).  The Hard bot returns move 1 — it maximizes the White-sided
evaluation at the root regardless of the side to move — while the
side-to-move-optimal choice demanded by the claim is move 2. -/
theorem hard_bot_black_picks_worst_move :
    getBestMoveHard blackRootEngine 0 = some (1, Ext.fin 9) ∧
    specSideToMoveOptimal blackRootEngine 3 0 = some 2 ∧
    blackRootEngine.turnWhite 0 = false ∧
    evaluatePosition (blackRootEngine.board 1) = 9 ∧
    evaluatePosition (blackRootEngine.board 2) = -9 := by
  decide

/-- C3: the code is wrong.  On an active session with no pending draw offer
(the fresh game; the data model has no pending-offer state at all and the
handler never checks for one), a draw response with accept = true does not
fail with a "no offer" condition: it dies in the missing-storage-method
catch with the generic failure, leaving the session unchanged — and had the
storage methods existed, the unguarded accept branch would have completed
the game as a draw. -/
theorem drawResponse_without_offer_generic_failure :
    drawResponseRoute startDb "alice" true = (DrawResp.storageFailure, startDb) ∧
    startDb.game.status = "active" ∧
    startDb.game.result = none := by
  decide

/-- C5: the code is wrong.  After "bob" resigns the fresh game the session is
completed with `white_wins` and both ratings have been adjusted once; yet a
subsequent resign by "alice" on this completed session succeeds (the handler
has no status check): it overwrites the result with `black_wins` and runs
the stat update a second time for the same terminal session, moving both
players' ratings and counters again. -/
theorem resign_completed_game_mutates :
    resignedDb.game.status = "completed" ∧
    resignedDb.game.result = some "white_wins" ∧
    resignedDb.users = [⟨"alice", 1225, 1, 1, 0, 0⟩, ⟨"bob", 1175, 1, 0, 1, 0⟩] ∧
    (resignRoute resignedDb "alice").1 = ResignResp.ok ∧
    (resignRoute resignedDb "alice").2.game.result = some "black_wins" ∧
    (resignRoute resignedDb "alice").2.users =
      [⟨"alice", 1200, 2, 1, 1, 0⟩, ⟨"bob", 1200, 2, 1, 1, 0⟩] := by
  decide

/-- C6 counterexample: after two match requests by the same player "A" (each
finding no compatible opponent, since the only waiting ticket is "A"'s own),
the queue holds two tickets for "A" — the at-most-one-ticket invariant is
false, and the second insert did not replace the first ticket. -/
theorem duplicate_tickets_accumulate :
    (requestMatch [⟨"A", 1200, 0, 0, 0, 0⟩] queueOnceA "A" 600 200 1 true).1 =
      RMResult.enqueued ⟨"A", 600, 200, 1⟩ ∧
    queueOnceA = [⟨"A", 600, 200, 0⟩] ∧
    queueTwiceA = [⟨"A", 600, 200, 0⟩, ⟨"A", 600, 200, 1⟩] ∧
    ¬ ticketCount "A" queueTwiceA ≤ 1 := by
  decide

/-- C10 counterexample: in a game of three accepted moves the recorded
clocks are exactly the client-declared values with no validation: White's
successive declared clocks 595 then 700 make the recorded sequence
increase, and a declared clock of -5 is recorded negative. -/
theorem declared_clock_unchecked_counterexample :
    ((applyMoveCore chainEngine
        (applyMoveCore chainEngine
          (applyMoveCore chainEngine startDb "alice" "e4" (some 595)).2
          "bob" "e5" (some 600)).2
        "alice" "Nf3" (some 700)).2.moves.map (fun r => r.timeRemaining)) =
      [some 595, some 600, some 700] ∧
    (applyMoveCore chainEngine
        (applyMoveCore chainEngine
          (applyMoveCore chainEngine startDb "alice" "e4" (some 595)).2
          "bob" "e5" (some 600)).2
        "alice" "Nf3" (some 700)).2.game.whiteTimeRemaining = some 700 ∧
    ¬ ((700 : Int) ≤ 595) ∧
    (applyMoveCore chainEngine startDb "alice" "e4" (some (-5))).2.game.whiteTimeRemaining =
      some (-5) ∧
    ((-5 : Int) < 0) := by
  decide

/-- C9: the rating updater of `DatabaseStorage.updateUserStats` maps a win to
rating + 25, a loss to `max 800 (rating - 25)` and a draw to rating + 5; for
any rating at least 800 the rating does not decrease on a win and never
falls below 800 after any outcome. -/
theorem rating_updater_spec (r : Int) :
    newRating r Outcome.win = r + 25 ∧
    newRating r Outcome.loss = max 800 (r - 25) ∧
    newRating r Outcome.draw = r + 5 ∧
    (800 ≤ r → r ≤ newRating r Outcome.win ∧ ∀ o : Outcome, 800 ≤ newRating r o) := by
  refine ⟨rfl, rfl, rfl, fun h => ⟨?_, fun o => ?_⟩⟩
  · simp only [newRating]
    omega
  · cases o
    · simp only [newRating]
      omega
    · simp only [newRating]
      exact le_max_left 800 (r - 25)
    · simp only [newRating]
      omega

/-- Witness for C9 at rating 1200: a win does not decrease it and a loss
keeps it at or above the 800 floor. -/
theorem rating_updater_spec_witness :
    (1200 : Int) ≤ newRating 1200 Outcome.win ∧ (800 : Int) ≤ newRating 1200 Outcome.loss :=
  ⟨((rating_updater_spec 1200).2.2.2 (by norm_num)).1,
   ((rating_updater_spec 1200).2.2.2 (by norm_num)).2 Outcome.loss⟩

/-- C4: both draw routes leave the state untouched on every request — in
particular no session ever becomes completed/draw through draw negotiation —
and any request that passes the status and participant checks ends in the
generic storage failure, because the storage methods the handlers call
(`addDrawOffer`, `removeDrawOffers`) are declared neither in `IStorage` nor
implemented by `DatabaseStorage`. -/
theorem draw_routes_never_complete {Pos M : Type} (db : Db Pos M) (userId : String)
    (accept : Bool) :
    (drawOfferRoute db userId).2 = db ∧
    (drawResponseRoute db userId accept).2 = db ∧
    (db.game.status = "active" →
      (db.game.whitePlayerId = some userId ∨ db.game.blackPlayerId = some userId) →
      (drawOfferRoute db userId).1 = DrawResp.storageFailure ∧
      (drawResponseRoute db userId accept).1 = DrawResp.storageFailure) := by
  refine ⟨?_, ?_, fun hact hpart => ?_⟩
  · simp only [drawOfferRoute]
    split
    · rfl
    · split
      · rfl
      · rfl
  · simp only [drawResponseRoute]
    split
    · rfl
    · split
      · rfl
      · rfl
  · rcases hpart with h | h <;>
      simp [drawOfferRoute, drawResponseRoute, hact, h]

/-- Witness for C4 on the fresh active game: alice's draw offer and draw
response both produce the storage failure and change nothing. -/
theorem draw_routes_never_complete_witness :
    (drawOfferRoute startDb "alice").1 = DrawResp.storageFailure ∧
    (drawOfferRoute startDb "alice").2 = startDb ∧
    (drawResponseRoute startDb "alice" true).1 = DrawResp.storageFailure ∧
    (drawResponseRoute startDb "alice" true).2 = startDb := by
  have h := draw_routes_never_complete startDb "alice" true
  exact ⟨(h.2.2 rfl (Or.inl rfl)).1, h.1, (h.2.2 rfl (Or.inl rfl)).2, h.2.1⟩

/-- C6 amended: when a match request finds no compatible opponent, the
ticket for the requester is appended to the queue as-is — nothing is removed
or replaced — so the requester's outstanding-ticket count grows by one and a
player can hold several tickets. -/
theorem requestMatch_enqueue_appends (users : List UserRec) (queue : List MMEntry)
    (playerId : String) (timeControl ratingRange : Int) (now : Nat) (coinWhite : Bool)
    (h : findMatchmakingOpponent users queue playerId timeControl = none) :
    requestMatch users queue playerId timeControl ratingRange now coinWhite =
      (RMResult.enqueued ⟨playerId, timeControl, ratingRange, now⟩,
       queue ++ [⟨playerId, timeControl, ratingRange, now⟩]) ∧
    ticketCount playerId (queue ++ [⟨playerId, timeControl, ratingRange, now⟩]) =
      ticketCount playerId queue + 1 := by
  constructor
  · simp [requestMatch, h, addToMatchmaking]
  · simp [ticketCount, List.filter_append]

/-- Witness for C6 amended: player "A" enqueued on the empty queue. -/
theorem requestMatch_enqueue_appends_witness :
    requestMatch [⟨"A", 1200, 0, 0, 0, 0⟩] [] "A" 600 200 0 true =
      (RMResult.enqueued ⟨"A", 600, 200, 0⟩, [] ++ [⟨"A", 600, 200, 0⟩]) ∧
    ticketCount "A" ([] ++ [⟨"A", 600, 200, 0⟩]) = ticketCount "A" [] + 1 :=
  requestMatch_enqueue_appends [⟨"A", 1200, 0, 0, 0, 0⟩] [] "A" 600 200 0 true (by decide)

/-- C7: an accepted move (mover is the participant whose colour matches the
turn, the two player slots differ, and the rules engine accepts the move)
succeeds, increments `moveCount` by exactly one, stores the engine's
resulting position, appends exactly one move record carrying the declared
clock, sets the status from the engine's game-over flag, flips the turn, and
replaces only the mover's clock with the declared value, leaving the
opponent's clock untouched. -/
theorem applyMove_success_effects {Pos M : Type} (E : Engine Pos M) (db : Db Pos M)
    (userId : String) (mv : M) (t : Int) (p' : Pos)
    (hdiff : db.game.whitePlayerId ≠ db.game.blackPlayerId)
    (hturn : (db.game.currentTurn = "white" ∧ db.game.whitePlayerId = some userId) ∨
             (db.game.currentTurn = "black" ∧ db.game.blackPlayerId = some userId))
    (hmv : E.tryMove db.game.fen mv = some p') :
    (applyMoveCore E db userId mv (some t)).1 = MoveResp.ok ∧
    (applyMoveCore E db userId mv (some t)).2.game.moveCount = db.game.moveCount + 1 ∧
    (applyMoveCore E db userId mv (some t)).2.game.fen = p' ∧
    (applyMoveCore E db userId mv (some t)).2.moves =
      db.moves ++ [⟨db.game.moveCount + 1, mv, p', some t⟩] ∧
    (applyMoveCore E db userId mv (some t)).2.game.status =
      (if E.gameOver p' then "completed" else "active") ∧
    (db.game.currentTurn = "white" →
      (applyMoveCore E db userId mv (some t)).2.game.currentTurn = "black" ∧
      (applyMoveCore E db userId mv (some t)).2.game.whiteTimeRemaining = some t ∧
      (applyMoveCore E db userId mv (some t)).2.game.blackTimeRemaining =
        db.game.blackTimeRemaining) ∧
    (db.game.currentTurn = "black" →
      (applyMoveCore E db userId mv (some t)).2.game.currentTurn = "white" ∧
      (applyMoveCore E db userId mv (some t)).2.game.blackTimeRemaining = some t ∧
      (applyMoveCore E db userId mv (some t)).2.game.whiteTimeRemaining =
        db.game.whiteTimeRemaining) := by
  rcases hturn with ⟨hw, hid⟩ | ⟨hb, hid⟩
  · have hbne : db.game.blackPlayerId ≠ some userId := fun hc => hdiff (hid.trans hc.symm)
    simp [applyMoveCore, hmv, hw, hid, hbne]
  · have hwne : db.game.whitePlayerId ≠ some userId := fun hc => hdiff (hc.trans hid.symm)
    simp [applyMoveCore, hmv, hb, hid, hwne]

/-- Witness for C7: the spec scenario — from the fresh game, White ("alice")
plays the accepted move "e4" with declared clock 595 of a 600 control; the
result has turn black, move count 1, White's clock 595, Black's clock 600,
and the game still active. -/
theorem applyMove_success_effects_witness :
    (applyMoveCore chainEngine startDb "alice" "e4" (some 595)).1 = MoveResp.ok ∧
    (applyMoveCore chainEngine startDb "alice" "e4" (some 595)).2.game.moveCount = 1 ∧
    (applyMoveCore chainEngine startDb "alice" "e4" (some 595)).2.game.currentTurn = "black" ∧
    (applyMoveCore chainEngine startDb "alice" "e4" (some 595)).2.game.whiteTimeRemaining =
      some 595 ∧
    (applyMoveCore chainEngine startDb "alice" "e4" (some 595)).2.game.blackTimeRemaining =
      some 600 ∧
    (applyMoveCore chainEngine startDb "alice" "e4" (some 595)).2.game.status = "active" := by
  have h := applyMove_success_effects chainEngine startDb "alice" "e4" 595 1
    (by decide) (Or.inl ⟨rfl, rfl⟩) rfl
  exact ⟨h.1, h.2.1, (h.2.2.2.2.2.1 rfl).1, (h.2.2.2.2.2.1 rfl).2.1,
    (h.2.2.2.2.2.1 rfl).2.2, h.2.2.2.2.1⟩

/-- The move route's possible results: success, or one of the three rejection
responses returned together with the untouched state. -/
theorem applyMoveCore_cases {Pos M : Type} (E : Engine Pos M) (db : Db Pos M)
    (userId : String) (mv : M) (t : Option Int) :
    (applyMoveCore E db userId mv t).1 = MoveResp.ok ∨
    applyMoveCore E db userId mv t = (MoveResp.notAPlayer, db) ∨
    applyMoveCore E db userId mv t = (MoveResp.notYourTurn, db) ∨
    applyMoveCore E db userId mv t = (MoveResp.invalidMove, db) := by
  simp only [applyMoveCore]
  split
  · exact Or.inr (Or.inl rfl)
  · split
    · exact Or.inr (Or.inr (Or.inl rfl))
    · split
      · exact Or.inr (Or.inr (Or.inr rfl))
      · exact Or.inl rfl

/-- C8: every rejected move attempt leaves the state untouched — a mover who
is in neither player slot is always rejected as not-a-player, regardless of
the stored position; any non-success response comes with the state unchanged
(no partial mutation); and a move the rules engine rejects never produces
the success response, again with the state unchanged. -/
theorem applyMove_failure_no_mutation {Pos M : Type} (E : Engine Pos M) (db : Db Pos M)
    (userId : String) (mv : M) (t : Option Int) :
    (db.game.whitePlayerId ≠ some userId ∧ db.game.blackPlayerId ≠ some userId →
      applyMoveCore E db userId mv t = (MoveResp.notAPlayer, db)) ∧
    ((applyMoveCore E db userId mv t).1 ≠ MoveResp.ok →
      (applyMoveCore E db userId mv t).2 = db) ∧
    (E.tryMove db.game.fen mv = none →
      (applyMoveCore E db userId mv t).1 ≠ MoveResp.ok ∧
      (applyMoveCore E db userId mv t).2 = db) := by
  refine ⟨fun ⟨hw, hb⟩ => ?_, fun hne => ?_, fun hmv => ?_⟩
  · simp [applyMoveCore, hw, hb]
  · rcases applyMoveCore_cases E db userId mv t with h | h | h | h
    · exact absurd h hne
    · rw [h]
    · rw [h]
    · rw [h]
  · have herr : applyMoveCore E db userId mv t = (MoveResp.notAPlayer, db) ∨
        applyMoveCore E db userId mv t = (MoveResp.notYourTurn, db) ∨
        applyMoveCore E db userId mv t = (MoveResp.invalidMove, db) := by
      simp only [applyMoveCore, hmv]
      split
      · exact Or.inl rfl
      · split
        · exact Or.inr (Or.inl rfl)
        · exact Or.inr (Or.inr rfl)
    rcases herr with h | h | h <;> rw [h] <;> exact ⟨by simp, rfl⟩

/-- Witness for C8: "carol" is not a player of the fresh game, and her move
attempt is rejected as not-a-player with the state unchanged. -/
theorem applyMove_failure_no_mutation_witness :
    applyMoveCore chainEngine startDb "carol" "e4" (some 595) =
      (MoveResp.notAPlayer, startDb) :=
  (applyMove_failure_no_mutation chainEngine startDb "carol" "e4" (some 595)).1
    ⟨by decide, by decide⟩

/-- C10 amended: the clock an accepted move records for the moving side —
both in the appended move record and in the mover's `timeRemaining` field —
is exactly the client-declared value; no relation to the previous clock and
no non-negativity is enforced, so the recorded sequence can increase or go
negative. -/
theorem recorded_clock_equals_declared {Pos M : Type} (E : Engine Pos M) (db : Db Pos M)
    (userId : String) (mv : M) (t : Int) (p' : Pos)
    (hdiff : db.game.whitePlayerId ≠ db.game.blackPlayerId)
    (hturn : (db.game.currentTurn = "white" ∧ db.game.whitePlayerId = some userId) ∨
             (db.game.currentTurn = "black" ∧ db.game.blackPlayerId = some userId))
    (hmv : E.tryMove db.game.fen mv = some p') :
    (applyMoveCore E db userId mv (some t)).2.moves =
      db.moves ++ [⟨db.game.moveCount + 1, mv, p', some t⟩] ∧
    (db.game.currentTurn = "white" →
      (applyMoveCore E db userId mv (some t)).2.game.whiteTimeRemaining = some t) ∧
    (db.game.currentTurn = "black" →
      (applyMoveCore E db userId mv (some t)).2.game.blackTimeRemaining = some t) := by
  rcases hturn with ⟨hw, hid⟩ | ⟨hb, hid⟩
  · have hbne : db.game.blackPlayerId ≠ some userId := fun hc => hdiff (hid.trans hc.symm)
    simp [applyMoveCore, hmv, hw, hid, hbne]
  · have hwne : db.game.whitePlayerId ≠ some userId := fun hc => hdiff (hc.trans hid.symm)
    simp [applyMoveCore, hmv, hb, hid, hwne]

/-- Witness for C10 amended: alice's accepted "e4" with declared clock 700
(above the 600 she had) records exactly 700. -/
theorem recorded_clock_equals_declared_witness :
    (applyMoveCore chainEngine startDb "alice" "e4" (some 700)).2.moves =
      startDb.moves ++ [⟨startDb.game.moveCount + 1, "e4", 1, some 700⟩] ∧
    (applyMoveCore chainEngine startDb "alice" "e4" (some 700)).2.game.whiteTimeRemaining =
      some 700 := by
  have h := recorded_clock_equals_declared chainEngine startDb "alice" "e4" 700 1
    (by decide) (Or.inl ⟨rfl, rfl⟩) rfl
  exact ⟨h.1, h.2.1 rfl⟩

end ChessConnect

